import Mathlib

/-!
# Agro-AI: verification of the offline-first cache / local-store core

Shallow embedding of the persistence and fallback logic of the Agro-AI
repository: the SQLite-backed `DatabaseService` (two variants), the keyed
recommendation cache, and the connectivity-driven fallback orchestrator in
the crop-recommendation screens.
-/

/-! ## JSON values

The cached payloads are produced by `JSON.stringify` and consumed by
`JSON.parse`.  We model JSON values as a mutual inductive family and give a
concrete printer and parser for the fragment the app uses (null, booleans,
integer numbers, strings with quote/backslash escaping, arrays, objects).
-/

mutual

inductive JVal where
  | jnull : JVal
  | jbool (b : Bool) : JVal
  | jint (n : Int) : JVal
  | jstr (s : String) : JVal
  | jarr (elems : JArr) : JVal
  | jobj (fields : JObj) : JVal

inductive JArr where
  | nil : JArr
  | cons (head : JVal) (tail : JArr) : JArr

inductive JObj where
  | nil : JObj
  | cons (key : String) (value : JVal) (tail : JObj) : JObj

end

deriving instance DecidableEq for JVal, JArr, JObj

/-- The quote character. -/
def quoteChar : Char := Char.ofNat 34

/-- The backslash character. -/
def backslashChar : Char := Char.ofNat 92

/-- The opening curly brace. -/
def lcurly : Char := Char.ofNat 123

/-- The closing curly brace. -/
def rcurly : Char := Char.ofNat 125

/-- A decimal digit character. -/
def digitChar (d : Nat) : Char := Char.ofNat (48 + d)

/-- Test for a decimal digit character. -/
def isDigitChar (c : Char) : Bool := 48 ≤ c.toNat && c.toNat ≤ 57

/-- Escaping of one character inside a JSON string literal. -/
def escChar (c : Char) : List Char :=
  if c = quoteChar then [backslashChar, c]
  else if c = backslashChar then [backslashChar, c]
  else [c]

/-- Escaping of a character list inside a JSON string literal. -/
def escList : List Char → List Char
  | [] => []
  | c :: cs => escChar c ++ escList cs

/-- Decimal digits of a natural number, most significant first. -/
def natChars (n : Nat) : List Char :=
  if _h : n < 10 then [digitChar n]
  else natChars (n / 10) ++ [digitChar (n % 10)]
termination_by n
decreasing_by exact Nat.div_lt_self (by omega) (by omega)

/-- Decimal rendering of an integer. -/
def intChars (i : Int) : List Char :=
  if i < 0 then '-' :: natChars i.natAbs else natChars i.toNat

mutual

/-- Printer for JSON values (the model of `JSON.stringify`). -/
def jprint : JVal → List Char
  | .jnull => ['n', 'u', 'l', 'l']
  | .jbool true => ['t', 'r', 'u', 'e']
  | .jbool false => ['f', 'a', 'l', 's', 'e']
  | .jint n => intChars n
  | .jstr s => quoteChar :: (escList s.data ++ [quoteChar])
  | .jarr a => '[' :: jprintArrBody a
  | .jobj o => lcurly :: jprintObjBody o

/-- Prints the elements of an array together with the closing bracket. -/
def jprintArrBody : JArr → List Char
  | .nil => [']']
  | .cons x t => jprint x ++ jprintArrTail t

/-- Prints the remaining elements of an array, each preceded by a comma. -/
def jprintArrTail : JArr → List Char
  | .nil => [']']
  | .cons x t => ',' :: (jprint x ++ jprintArrTail t)

/-- Prints the fields of an object together with the closing brace. -/
def jprintObjBody : JObj → List Char
  | .nil => [rcurly]
  | .cons k v t =>
      quoteChar :: (escList k.data ++ (quoteChar :: ':' :: (jprint v ++ jprintObjTail t)))

/-- Prints the remaining fields of an object, each preceded by a comma. -/
def jprintObjTail : JObj → List Char
  | .nil => [rcurly]
  | .cons k v t =>
      ',' :: (quoteChar :: (escList k.data ++ (quoteChar :: ':' :: (jprint v ++ jprintObjTail t))))

end

/-- The string form of a printed JSON value. -/
def jprintS (v : JVal) : String := String.mk (jprint v)

/-! ### Parser (the model of `JSON.parse`)

Structural on a fuel counter for the mutually recursive part; the string
and digit scanners are structural on the input list.
-/

/-- Scans the body of a string literal up to the closing quote, undoing
the backslash escapes. -/
def parseStrBody : List Char → Option (List Char × List Char)
  | [] => none
  | c :: cs =>
    if c = quoteChar then some ([], cs)
    else if c = backslashChar then
      match cs with
      | [] => none
      | e :: cs2 =>
        match parseStrBody cs2 with
        | none => none
        | some (s, r) => some (e :: s, r)
    else
      match parseStrBody cs with
      | none => none
      | some (s, r) => some (c :: s, r)

/-- Greedily scans decimal digits, accumulating their value. -/
def parseDigits : List Char → Nat → Nat × List Char
  | [], acc => (acc, [])
  | c :: cs, acc =>
    if isDigitChar c then parseDigits cs (acc * 10 + (c.toNat - 48)) else (acc, c :: cs)

/-- True when the input starts with a decimal digit. -/
def digitStart : List Char → Bool
  | [] => false
  | c :: _ => isDigitChar c

/-- Expects a fixed literal tail, returning the input after it. -/
def expectLit : List Char → List Char → Option (List Char)
  | [], input => some input
  | _ :: _, [] => none
  | e :: es, c :: cs => if c = e then expectLit es cs else none

/-- Parses a keyword literal into a fixed value. -/
def parseLit (lit : List Char) (res : JVal) (cs : List Char) : Option (JVal × List Char) :=
  match expectLit lit cs with
  | some r => some (res, r)
  | none => none

/-- Parses a number token from its first character and the remaining input. -/
def parseNumTok (c : Char) (cs : List Char) : Option (JVal × List Char) :=
  if c = '-' then
    match cs with
    | [] => none
    | d :: cs2 =>
      if isDigitChar d then
        match parseDigits (d :: cs2) 0 with
        | (k, r) => some (.jint (-(k : Int)), r)
      else none
  else if isDigitChar c then
    match parseDigits (c :: cs) 0 with
    | (k, r) => some (.jint (k : Int), r)
  else none

mutual

/-- Parses one JSON value. -/
def parseV : Nat → List Char → Option (JVal × List Char)
  | 0, _ => none
  | _ + 1, [] => none
  | fuel + 1, c :: cs =>
    if c = 'n' then parseLit ['u', 'l', 'l'] .jnull cs
    else if c = 't' then parseLit ['r', 'u', 'e'] (.jbool true) cs
    else if c = 'f' then parseLit ['a', 'l', 's', 'e'] (.jbool false) cs
    else if c = quoteChar then
      match parseStrBody cs with
      | some (s, r) => some (.jstr (String.mk s), r)
      | none => none
    else if c = '[' then parseArrB fuel cs
    else if c = lcurly then parseObjB fuel cs
    else parseNumTok c cs

/-- Parses the inside of an array, after the opening bracket. -/
def parseArrB : Nat → List Char → Option (JVal × List Char)
  | 0, _ => none
  | _ + 1, [] => none
  | fuel + 1, c :: cs =>
    if c = ']' then some (.jarr .nil, cs)
    else
      match parseV fuel (c :: cs) with
      | none => none
      | some (x, r) =>
        match parseArrT fuel r with
        | none => none
        | some (t, r2) => some (.jarr (JArr.cons x t), r2)

/-- Parses the rest of an array: a closing bracket or a comma and an element. -/
def parseArrT : Nat → List Char → Option (JArr × List Char)
  | 0, _ => none
  | _ + 1, [] => none
  | fuel + 1, c :: cs =>
    if c = ']' then some (.nil, cs)
    else if c = ',' then
      match parseV fuel cs with
      | none => none
      | some (x, r) =>
        match parseArrT fuel r with
        | none => none
        | some (t, r2) => some (.cons x t, r2)
    else none

/-- Parses the inside of an object, after the opening brace. -/
def parseObjB : Nat → List Char → Option (JVal × List Char)
  | 0, _ => none
  | _ + 1, [] => none
  | fuel + 1, c :: cs =>
    if c = rcurly then some (.jobj .nil, cs)
    else if c = quoteChar then
      match parseStrBody cs with
      | none => none
      | some (k, r1) =>
        match r1 with
        | [] => none
        | c2 :: r2 =>
          if c2 = ':' then
            match parseV fuel r2 with
            | none => none
            | some (v, r3) =>
              match parseObjT fuel r3 with
              | none => none
              | some (t, r4) => some (.jobj (JObj.cons (String.mk k) v t), r4)
          else none
    else none

/-- Parses the rest of an object: a closing brace or a comma and a field. -/
def parseObjT : Nat → List Char → Option (JObj × List Char)
  | 0, _ => none
  | _ + 1, [] => none
  | fuel + 1, c :: cs =>
    if c = rcurly then some (.nil, cs)
    else if c = ',' then
      match cs with
      | [] => none
      | c2 :: cs2 =>
        if c2 = quoteChar then
          match parseStrBody cs2 with
          | none => none
          | some (k, r1) =>
            match r1 with
            | [] => none
            | c3 :: r2 =>
              if c3 = ':' then
                match parseV fuel r2 with
                | none => none
                | some (v, r3) =>
                  match parseObjT fuel r3 with
                  | none => none
                  | some (t, r4) => some (.cons (String.mk k) v t, r4)
              else none
        else none
    else none

end

/-- Parses a complete string as one JSON value, rejecting trailing input. -/
def jparse (s : String) : Option JVal :=
  match parseV (s.data.length + 1) s.data with
  | some (v, []) => some v
  | _ => none

/-! ### Size measures used to discharge the parser fuel -/

mutual

/-- Node-count measure of a JSON value. -/
def sizeV : JVal → Nat
  | .jnull => 1
  | .jbool _ => 1
  | .jint _ => 1
  | .jstr _ => 1
  | .jarr a => sizeA a + 1
  | .jobj o => sizeO o + 1

/-- Node-count measure of a JSON array. -/
def sizeA : JArr → Nat
  | .nil => 0
  | .cons x t => sizeV x + sizeA t + 1

/-- Node-count measure of a JSON object. -/
def sizeO : JObj → Nat
  | .nil => 0
  | .cons _ v t => sizeV v + sizeO t + 1

end

/-! ### Printer/parser inverse lemmas -/

theorem sizeV_pos (v : JVal) : 1 ≤ sizeV v := by
  cases v <;> simp [sizeV]

theorem isDigitChar_digitChar (d : Nat) (h : d < 10) : isDigitChar (digitChar d) = true := by
  interval_cases d <;> decide

theorem toNat_digitChar (d : Nat) (h : d < 10) : (digitChar d).toNat = 48 + d := by
  interval_cases d <;> decide

theorem digit_ne (c : Char) (h : isDigitChar c = true) :
    c ≠ 'n' ∧ c ≠ 't' ∧ c ≠ 'f' ∧ c ≠ quoteChar ∧ c ≠ '[' ∧ c ≠ lcurly ∧
      c ≠ '-' ∧ c ≠ ']' ∧ c ≠ rcurly ∧ c ≠ ',' := by
  refine ⟨?_, ?_, ?_, ?_, ?_, ?_, ?_, ?_, ?_, ?_⟩ <;>
    (intro hEq; subst hEq; revert h; decide)

theorem natChars_split (n : Nat) : ∃ c t, natChars n = c :: t ∧ isDigitChar c = true := by
  induction n using Nat.strong_induction_on with
  | _ n ih =>
    rw [natChars]
    split_ifs with h
    · exact ⟨digitChar n, [], rfl, isDigitChar_digitChar n h⟩
    · obtain ⟨c, t, hct, hd⟩ := ih (n / 10) (Nat.div_lt_self (by omega) (by omega))
      exact ⟨c, t ++ [digitChar (n % 10)], by rw [hct]; rfl, hd⟩

theorem parseDigits_natChars (n : Nat) :
    ∀ (rest : List Char) (acc : Nat),
      parseDigits (natChars n ++ rest) acc
        = parseDigits rest (acc * 10 ^ (natChars n).length + n) := by
  induction n using Nat.strong_induction_on with
  | _ n ih =>
    intro rest acc
    rw [natChars]
    split_ifs with h
    · simp [parseDigits, isDigitChar_digitChar n h, toNat_digitChar n h]
    · rw [List.append_assoc, ih (n / 10) (Nat.div_lt_self (by omega) (by omega))]
      have hm : n % 10 < 10 := Nat.mod_lt _ (by omega)
      simp only [List.cons_append, parseDigits, isDigitChar_digitChar _ hm,
        toNat_digitChar _ hm, if_pos]
      have harith :
          (acc * 10 ^ (natChars (n / 10)).length + n / 10) * 10 + (48 + n % 10 - 48)
            = acc * 10 ^ ((natChars (n / 10)).length + 1) + n := by
        have h48 : 48 + n % 10 - 48 = n % 10 := by omega
        rw [h48]
        calc (acc * 10 ^ (natChars (n / 10)).length + n / 10) * 10 + n % 10
            = acc * 10 ^ (natChars (n / 10)).length * 10 + (10 * (n / 10) + n % 10) := by
              ring
          _ = acc * 10 ^ (natChars (n / 10)).length * 10 + n := by
              rw [Nat.div_add_mod]
          _ = acc * 10 ^ ((natChars (n / 10)).length + 1) + n := by
              rw [pow_succ]; ring
      rw [harith]
      simp [List.length_append]

theorem parseDigits_stop (rest : List Char) (acc : Nat) (h : digitStart rest = false) :
    parseDigits rest acc = (acc, rest) := by
  cases rest with
  | nil => simp [parseDigits]
  | cons c cs =>
    simp only [digitStart] at h
    simp [parseDigits, h]

theorem parseDigits_natChars_done (n : Nat) (rest : List Char) (h : digitStart rest = false) :
    parseDigits (natChars n ++ rest) 0 = (n, rest) := by
  rw [parseDigits_natChars, parseDigits_stop rest _ h]
  simp

theorem parseStrBody_escList (cs : List Char) :
    ∀ rest : List Char, parseStrBody (escList cs ++ (quoteChar :: rest)) = some (cs, rest) := by
  induction cs with
  | nil =>
    intro rest
    show parseStrBody (quoteChar :: rest) = _
    rw [parseStrBody.eq_def]
    simp
  | cons c cs ih =>
    intro rest
    show parseStrBody ((escChar c ++ escList cs) ++ (quoteChar :: rest)) = _
    rw [List.append_assoc]
    unfold escChar
    split_ifs with h1 h2
    · subst h1
      rw [List.cons_append, List.cons_append, parseStrBody.eq_def]
      simp [ih rest, show ¬(backslashChar = quoteChar) by decide]
    · subst h2
      rw [List.cons_append, List.cons_append, parseStrBody.eq_def]
      simp [ih rest, show ¬(backslashChar = quoteChar) by decide]
    · rw [List.cons_append, List.nil_append, parseStrBody.eq_def]
      simp [h1, h2, ih rest]

theorem intChars_head (n : Int) :
    ∃ c t, intChars n = c :: t ∧ ¬(c = 'n') ∧ ¬(c = 't') ∧ ¬(c = 'f') ∧
      ¬(c = quoteChar) ∧ ¬(c = '[') ∧ ¬(c = lcurly) ∧ ¬(c = ']') := by
  by_cases hn : n < 0
  · exact ⟨'-', natChars n.natAbs, by simp [intChars, hn], by decide, by decide, by decide,
      by decide, by decide, by decide, by decide⟩
  · obtain ⟨c, t, hct, hd⟩ := natChars_split n.toNat
    obtain ⟨h1, h2, h3, h4, h5, h6, _, h8, _, _⟩ := digit_ne c hd
    exact ⟨c, t, by simp [intChars, hn, hct], h1, h2, h3, h4, h5, h6, h8⟩

theorem parseNumTok_intChars (n : Int) (rest : List Char) (hd : digitStart rest = false)
    (c : Char) (t : List Char) (hct : intChars n = c :: t) :
    parseNumTok c (t ++ rest) = some (.jint n, rest) := by
  by_cases hn : n < 0
  · rw [intChars, if_pos hn] at hct
    injection hct with hc ht
    subst hc
    obtain ⟨d, t2, hdt, hdd⟩ := natChars_split n.natAbs
    have hpd : parseDigits (d :: (t2 ++ rest)) 0 = (n.natAbs, rest) := by
      rw [← List.cons_append, ← hdt]
      exact parseDigits_natChars_done _ _ hd
    rw [parseNumTok.eq_def, if_pos rfl, ← ht, hdt]
    simp [hdd, hpd]
    rw [abs_of_nonpos (by omega : n ≤ 0)]
    ring
  · rw [intChars, if_neg hn] at hct
    have hdd : isDigitChar c = true := by
      obtain ⟨d, t2, hdt, hdd⟩ := natChars_split n.toNat
      rw [hct] at hdt
      injection hdt with hc _
      exact hc ▸ hdd
    have hpd : parseDigits (c :: (t ++ rest)) 0 = (n.toNat, rest) := by
      rw [← List.cons_append, ← hct]
      exact parseDigits_natChars_done _ _ hd
    have hni : ((n.toNat : Int)) = n := Int.toNat_of_nonneg (by omega)
    obtain ⟨_, _, _, _, _, _, hm', _, _, _⟩ := digit_ne c hdd
    rw [parseNumTok.eq_def, if_neg hm']
    simp [hdd, hpd, hni]

theorem jprint_head_ne (v : JVal) : ∃ c t, jprint v = c :: t ∧ ¬(c = ']') := by
  cases v with
  | jnull => exact ⟨'n', ['u', 'l', 'l'], by simp [jprint], by decide⟩
  | jbool b =>
    cases b with
    | false => exact ⟨'f', ['a', 'l', 's', 'e'], by simp [jprint], by decide⟩
    | true => exact ⟨'t', ['r', 'u', 'e'], by simp [jprint], by decide⟩
  | jint n =>
    obtain ⟨c, t, hct, _, _, _, _, _, _, h8⟩ := intChars_head n
    exact ⟨c, t, by simp [jprint, hct], h8⟩
  | jstr s => exact ⟨quoteChar, escList s.data ++ [quoteChar], by simp [jprint], by decide⟩
  | jarr a => exact ⟨'[', jprintArrBody a, by simp [jprint], by decide⟩
  | jobj o => exact ⟨lcurly, jprintObjBody o, by simp [jprint], by decide⟩

theorem digitStart_arrTail (t : JArr) (rest : List Char) :
    digitStart (jprintArrTail t ++ rest) = false := by
  cases t <;> simp [jprintArrTail, digitStart] <;> decide

theorem digitStart_objTail (t : JObj) (rest : List Char) :
    digitStart (jprintObjTail t ++ rest) = false := by
  cases t <;> simp [jprintObjTail, digitStart] <;> decide

set_option maxHeartbeats 2000000 in
theorem rt_master (fuel : Nat) :
    (∀ (v : JVal) (rest : List Char), sizeV v < fuel → digitStart rest = false →
      parseV fuel (jprint v ++ rest) = some (v, rest)) ∧
    (∀ (a : JArr) (rest : List Char), sizeA a < fuel →
      parseArrB fuel (jprintArrBody a ++ rest) = some (.jarr a, rest)) ∧
    (∀ (a : JArr) (rest : List Char), sizeA a < fuel →
      parseArrT fuel (jprintArrTail a ++ rest) = some (a, rest)) ∧
    (∀ (o : JObj) (rest : List Char), sizeO o < fuel →
      parseObjB fuel (jprintObjBody o ++ rest) = some (.jobj o, rest)) ∧
    (∀ (o : JObj) (rest : List Char), sizeO o < fuel →
      parseObjT fuel (jprintObjTail o ++ rest) = some (o, rest)) := by
  induction fuel with
  | zero =>
    exact ⟨fun v _ h _ => absurd h (Nat.not_lt_zero _),
      fun a _ h => absurd h (Nat.not_lt_zero _),
      fun a _ h => absurd h (Nat.not_lt_zero _),
      fun o _ h => absurd h (Nat.not_lt_zero _),
      fun o _ h => absurd h (Nat.not_lt_zero _)⟩
  | succ f ih =>
    obtain ⟨ihV, ihAB, ihAT, ihOB, ihOT⟩ := ih
    refine ⟨?_, ?_, ?_, ?_, ?_⟩
    · intro v rest hs hd
      cases v with
      | jnull =>
        have he : jprint JVal.jnull ++ rest = 'n' :: 'u' :: 'l' :: 'l' :: rest := by
          simp [jprint]
        rw [he, parseV.eq_def]
        simp [parseLit, expectLit]
      | jbool b =>
        cases b with
        | true =>
          have he : jprint (JVal.jbool true) ++ rest = 't' :: 'r' :: 'u' :: 'e' :: rest := by
            simp [jprint]
          rw [he, parseV.eq_def]
          simp [parseLit, expectLit]
        | false =>
          have he : jprint (JVal.jbool false) ++ rest
              = 'f' :: 'a' :: 'l' :: 's' :: 'e' :: rest := by
            simp [jprint]
          rw [he, parseV.eq_def]
          simp [parseLit, expectLit]
      | jint n =>
        obtain ⟨c, t, hct, h1, h2, h3, h4, h5, h6, _⟩ := intChars_head n
        have he : jprint (JVal.jint n) ++ rest = c :: (t ++ rest) := by
          simp [jprint, hct]
        rw [he, parseV.eq_def]
        simp only [h1, h2, h3, h4, h5, h6, if_false, if_neg, ite_false]
        exact parseNumTok_intChars n rest hd c t hct
      | jstr s =>
        have he : jprint (JVal.jstr s) ++ rest
            = quoteChar :: (escList s.data ++ (quoteChar :: rest)) := by
          simp [jprint]
        rw [he, parseV.eq_def]
        have hk : String.mk s.data = s := rfl
        simp [show ¬(quoteChar = 'n') by decide, show ¬(quoteChar = 't') by decide,
          show ¬(quoteChar = 'f') by decide, parseStrBody_escList, hk]
      | jarr a =>
        have he : jprint (JVal.jarr a) ++ rest = '[' :: (jprintArrBody a ++ rest) := by
          simp [jprint]
        rw [he, parseV.eq_def]
        have hab := ihAB a rest (by simp [sizeV] at hs; omega)
        simp [show ¬(('[' : Char) = quoteChar) by decide, hab]
      | jobj o =>
        have he : jprint (JVal.jobj o) ++ rest = lcurly :: (jprintObjBody o ++ rest) := by
          simp [jprint]
        rw [he, parseV.eq_def]
        have hob := ihOB o rest (by simp [sizeV] at hs; omega)
        simp [show ¬(lcurly = 'n') by decide, show ¬(lcurly = 't') by decide,
          show ¬(lcurly = 'f') by decide, show ¬(lcurly = quoteChar) by decide,
          show ¬(lcurly = '[') by decide, hob]
    · intro a rest hs
      cases a with
      | nil =>
        have he : jprintArrBody JArr.nil ++ rest = ']' :: rest := by simp [jprintArrBody]
        rw [he, parseArrB.eq_def]
        simp
      | cons x t =>
        obtain ⟨c, cs0, hct, hc⟩ := jprint_head_ne x
        have he : jprintArrBody (JArr.cons x t) ++ rest
            = c :: (cs0 ++ (jprintArrTail t ++ rest)) := by
          simp [jprintArrBody, hct]
        rw [he, parseArrB.eq_def]
        simp only [sizeA] at hs
        have hv : parseV f (c :: (cs0 ++ (jprintArrTail t ++ rest)))
            = some (x, jprintArrTail t ++ rest) := by
          rw [← List.cons_append, ← hct]
          exact ihV x _ (by omega) (digitStart_arrTail t rest)
        have hat : parseArrT f (jprintArrTail t ++ rest) = some (t, rest) :=
          ihAT t rest (by omega)
        simp [hc, hv, hat]
    · intro a rest hs
      cases a with
      | nil =>
        have he : jprintArrTail JArr.nil ++ rest = ']' :: rest := by simp [jprintArrTail]
        rw [he, parseArrT.eq_def]
        simp
      | cons x t =>
        have he : jprintArrTail (JArr.cons x t) ++ rest
            = ',' :: (jprint x ++ (jprintArrTail t ++ rest)) := by
          simp [jprintArrTail]
        rw [he, parseArrT.eq_def]
        simp only [sizeA] at hs
        have hv := ihV x (jprintArrTail t ++ rest) (by omega) (digitStart_arrTail t rest)
        have hat := ihAT t rest (by omega)
        simp [hv, hat]
    · intro o rest hs
      cases o with
      | nil =>
        have he : jprintObjBody JObj.nil ++ rest = rcurly :: rest := by simp [jprintObjBody]
        rw [he, parseObjB.eq_def]
        simp
      | cons k v t =>
        have he : jprintObjBody (JObj.cons k v t) ++ rest
            = quoteChar ::
                (escList k.data ++ (quoteChar :: (':' :: (jprint v ++ (jprintObjTail t ++ rest))))) := by
          simp [jprintObjBody]
        rw [he, parseObjB.eq_def]
        simp only [sizeO] at hs
        have hstr := parseStrBody_escList k.data (':' :: (jprint v ++ (jprintObjTail t ++ rest)))
        have hv := ihV v (jprintObjTail t ++ rest) (by omega) (digitStart_objTail t rest)
        have hot := ihOT t rest (by omega)
        have hk : String.mk k.data = k := rfl
        simp [show ¬(quoteChar = rcurly) by decide, hstr, hv, hot, hk]
    · intro o rest hs
      cases o with
      | nil =>
        have he : jprintObjTail JObj.nil ++ rest = rcurly :: rest := by simp [jprintObjTail]
        rw [he, parseObjT.eq_def]
        simp
      | cons k v t =>
        have he : jprintObjTail (JObj.cons k v t) ++ rest
            = ',' :: (quoteChar ::
                (escList k.data ++ (quoteChar :: (':' :: (jprint v ++ (jprintObjTail t ++ rest)))))) := by
          simp [jprintObjTail]
        rw [he, parseObjT.eq_def]
        simp only [sizeO] at hs
        have hstr := parseStrBody_escList k.data (':' :: (jprint v ++ (jprintObjTail t ++ rest)))
        have hv := ihV v (jprintObjTail t ++ rest) (by omega) (digitStart_objTail t rest)
        have hot := ihOT t rest (by omega)
        have hk : String.mk k.data = k := rfl
        simp [show ¬((',' : Char) = rcurly) by decide, hstr, hv, hot, hk]

theorem intChars_length_pos (n : Int) : 1 ≤ (intChars n).length := by
  obtain ⟨c, t, hct, _⟩ := intChars_head n
  simp [hct]

theorem sizeBound (n : Nat) :
    (∀ v : JVal, sizeV v ≤ n → sizeV v ≤ (jprint v).length) ∧
    (∀ a : JArr, sizeA a ≤ n →
      sizeA a ≤ (jprintArrBody a).length ∧ sizeA a + 1 ≤ (jprintArrTail a).length) ∧
    (∀ o : JObj, sizeO o ≤ n →
      sizeO o ≤ (jprintObjBody o).length ∧ sizeO o + 1 ≤ (jprintObjTail o).length) := by
  induction n with
  | zero =>
    refine ⟨?_, ?_, ?_⟩
    · intro v h
      have := sizeV_pos v
      omega
    · intro a h
      cases a with
      | nil => simp [sizeA, jprintArrBody, jprintArrTail]
      | cons x t =>
        have := sizeV_pos x
        simp only [sizeA] at h
        omega
    · intro o h
      cases o with
      | nil => simp [sizeO, jprintObjBody, jprintObjTail]
      | cons k v t =>
        have := sizeV_pos v
        simp only [sizeO] at h
        omega
  | succ n ih =>
    obtain ⟨ihV, ihA, ihO⟩ := ih
    refine ⟨?_, ?_, ?_⟩
    · intro v h
      cases v with
      | jnull => simp [sizeV, jprint]
      | jbool b => cases b <;> simp [sizeV, jprint]
      | jint m =>
        have := intChars_length_pos m
        simp [sizeV, jprint]
        omega
      | jstr s => simp [sizeV, jprint]
      | jarr a =>
        simp only [sizeV] at h ⊢
        have ha := (ihA a (by omega)).1
        simp [jprint]
        omega
      | jobj o =>
        simp only [sizeV] at h ⊢
        have ho := (ihO o (by omega)).1
        simp [jprint]
        omega
    · intro a h
      cases a with
      | nil => simp [sizeA, jprintArrBody, jprintArrTail]
      | cons x t =>
        simp only [sizeA] at h ⊢
        have hx := ihV x (by omega)
        have ht := (ihA t (by omega)).2
        constructor
        · simp [jprintArrBody]
          omega
        · simp [jprintArrTail]
          omega
    · intro o h
      cases o with
      | nil => simp [sizeO, jprintObjBody, jprintObjTail]
      | cons k v t =>
        simp only [sizeO] at h ⊢
        have hv := ihV v (by omega)
        have ht := (ihO t (by omega)).2
        constructor
        · simp [jprintObjBody]
          omega
        · simp [jprintObjTail]
          omega

theorem jprint_size_le (v : JVal) : sizeV v ≤ (jprint v).length :=
  (sizeBound (sizeV v)).1 v le_rfl

/-- The codec round-trip: parsing a printed JSON value gives the value back. -/
theorem jparse_jprintS (v : JVal) : jparse (jprintS v) = some v := by
  have hfuel : sizeV v < (jprint v).length + 1 := Nat.lt_succ_of_le (jprint_size_le v)
  have h := (rt_master ((jprint v).length + 1)).1 v [] hfuel (by simp [digitStart])
  rw [List.append_nil] at h
  show (match parseV ((jprint v).length + 1) (jprint v) with
        | some (w, []) => some w
        | _ => none) = some v
  rw [h]

/-! ## The Keyed Cache

The `weather_cache` table of both `DatabaseService` variants:
`location TEXT UNIQUE, data TEXT NOT NULL, timestamp INTEGER NOT NULL`.
The put/get operations themselves (`cacheRecommendations`,
`getRecommendationsCache`) are invoked by the orchestrators but are defined
in neither variant, so they are modelled from the spec below.
-/

/-- A row of the `weather_cache` table. -/
structure CacheRow where
  location : String
  data : String
  timestamp : Nat
deriving DecidableEq

/-- The `weather_cache` table contents. -/
abbrev CacheState := List CacheRow

/-- Modelled from the spec: the missing `DatabaseService.cacheRecommendations`
(Keyed Cache `put`): serializes the payload, stamps the write time and
insert-or-replaces by key, keeping at most one row per key. -/
def cacheRecommendationsSpec (st : CacheState) (key : String) (payload : JVal)
    (now : Nat) : CacheState :=
  (st.filter fun r => !(r.location == key)) ++ [⟨key, jprintS payload, now⟩]

/-- Modelled from the spec: the missing `DatabaseService.getRecommendationsCache`
(Keyed Cache `get`): point lookup by key, deserializing the payload; a row
that fails to deserialize is treated as "not found" and deleted
(self-healing), and nothing is raised to the caller. -/
def getRecommendationsCacheSpec (st : CacheState) (key : String) :
    Option (JVal × Nat) × CacheState :=
  match st.find? (fun r => r.location == key) with
  | none => (none, st)
  | some row =>
    match jparse row.data with
    | some v => (some (v, row.timestamp), st)
    | none => (none, st.filter fun r => !(r.location == key))

/-- Number of persisted rows under a given key. -/
def countKey (st : CacheState) (key : String) : Nat :=
  (st.filter fun r => r.location == key).length

theorem find?_filter_not_beq (l : CacheState) (key : String) :
    (l.filter fun r => !(r.location == key)).find? (fun r => r.location == key) = none := by
  induction l with
  | nil => rfl
  | cons r l ih =>
    by_cases h : r.location = key
    · simp [List.filter_cons, h, ih]
    · simp [List.filter_cons, List.find?_cons, h, ih]

theorem find?_append_left_none {α : Type} (p : α → Bool) (l1 l2 : List α)
    (h : l1.find? p = none) : (l1 ++ l2).find? p = l2.find? p := by
  induction l1 with
  | nil => simp
  | cons a l ih =>
    rw [List.find?_cons] at h
    by_cases ha : p a = true
    · simp [ha] at h
    · simp only [Bool.not_eq_true] at ha
      simp only [ha] at h
      simp [List.find?_cons, ha, ih h]

theorem filter_not_filter_beq (l : CacheState) (key : String) :
    (l.filter fun r => !(r.location == key)).filter (fun r => r.location == key) = [] := by
  induction l with
  | nil => rfl
  | cons r l ih =>
    by_cases h : r.location = key
    · simp [List.filter_cons, h, ih]
    · simp [List.filter_cons, h, ih]

theorem filter_not_idem (l : CacheState) (key : String) :
    ((l.filter fun r => !(r.location == key)).filter fun r => !(r.location == key))
      = l.filter fun r => !(r.location == key) := by
  induction l with
  | nil => rfl
  | cons r l ih =>
    by_cases h : r.location = key
    · simp [List.filter_cons, h, ih]
    · simp [List.filter_cons, h, ih]

/-- `get` after `put` of the same key: the payload round-trips. -/
theorem get_after_put (st : CacheState) (key : String) (p : JVal) (now : Nat) :
    getRecommendationsCacheSpec (cacheRecommendationsSpec st key p now) key
      = (some ((p, now)), cacheRecommendationsSpec st key p now) := by
  unfold getRecommendationsCacheSpec cacheRecommendationsSpec
  rw [find?_append_left_none _ _ _ (find?_filter_not_beq st key)]
  simp [List.find?_cons, jparse_jprintS]

/-- After a `put`, exactly one row exists under the key. -/
theorem countKey_put (st : CacheState) (key : String) (p : JVal) (now : Nat) :
    countKey (cacheRecommendationsSpec st key p now) key = 1 := by
  unfold countKey cacheRecommendationsSpec
  rw [List.filter_append, filter_not_filter_beq]
  simp

/-- A second `put` to the same key fully replaces the first. -/
theorem put_put (st : CacheState) (key : String) (p1 p2 : JVal) (n1 n2 : Nat) :
    cacheRecommendationsSpec (cacheRecommendationsSpec st key p1 n1) key p2 n2
      = cacheRecommendationsSpec st key p2 n2 := by
  unfold cacheRecommendationsSpec
  rw [List.filter_append, filter_not_idem]
  simp

/-- `get` on a key whose stored row is corrupt: "not found", and the row is
deleted, so a second `get` still reports "not found" on an unchanged state. -/
theorem get_corrupt (st : CacheState) (key : String) (row : CacheRow)
    (hfind : st.find? (fun r => r.location == key) = some row)
    (hbad : jparse row.data = none) :
    (getRecommendationsCacheSpec st key).1 = none ∧
    ((getRecommendationsCacheSpec st key).2.find? (fun r => r.location == key) = none) ∧
    getRecommendationsCacheSpec (getRecommendationsCacheSpec st key).2 key
      = (none, (getRecommendationsCacheSpec st key).2) := by
  have h2 : getRecommendationsCacheSpec st key
      = (none, st.filter fun r => !(r.location == key)) := by
    unfold getRecommendationsCacheSpec
    rw [hfind]
    simp [hbad]
  refine ⟨by rw [h2], by rw [h2]; exact find?_filter_not_beq st key, ?_⟩
  rw [h2]
  unfold getRecommendationsCacheSpec
  rw [find?_filter_not_beq st key]

/-! ## The local store (`DatabaseService`)

Embedded from `DatabaseService.js`.  The repository has two variants: the
"language-aware" one (with the `language` column and the schema migration)
and the "base" one (no `language` column, no migration).  The user table can
be in the old shape (no `language` column) or the new shape; SQLite state is
a record of the three tables.
-/

/-- A `user_profile` row in the old shape (no `language` column). -/
structure OldUserRow where
  id : Int
  name : String
  location : Option String
  farmSize : Option Rat
  phone : Option String
deriving DecidableEq

/-- A `user_profile` row in the new shape (`language TEXT DEFAULT 'en'`). -/
structure NewUserRow where
  id : Int
  name : String
  location : Option String
  farmSize : Option Rat
  phone : Option String
  language : Option String
deriving DecidableEq

/-- The `user_profile` table, in the old or the new shape. -/
inductive UserTable where
  | old (rows : List OldUserRow)
  | new (rows : List NewUserRow)
deriving DecidableEq

/-- A `disease_history` row. -/
structure DiseaseRow where
  cropName : Option String
  diseaseName : String
  confidence : Option Rat
  imagePath : Option String
  timestamp : Nat
deriving DecidableEq

/-- The SQLite database state: the three tables of the schema. -/
structure DBState where
  user : Option UserTable
  disease : List DiseaseRow
  cache : CacheState
deriving DecidableEq

/-- The `CREATE TABLE IF NOT EXISTS` batch: a missing `user_profile` is
created directly in the new shape; an existing table is left untouched. -/
def ensureTables (st : DBState) : DBState :=
  { st with user := some (st.user.getD (.new [])) }

/-- The migration row copy: old columns map 1:1, the unlisted `language`
column takes its declared default value. -/
def migrateRow (r : OldUserRow) : NewUserRow :=
  ⟨r.id, r.name, r.location, r.farmSize, r.phone, some "en"⟩

/-- `initialize()` of the language-aware variant, with every SQL step
succeeding: create tables if missing, then migrate the user table iff the
`language` column is absent (`PRAGMA table_info` presence check). -/
def initDb (st : DBState) : DBState :=
  let st1 := ensureTables st
  match st1.user with
  | some (.old rows) => { st1 with user := some (.new (rows.map migrateRow)) }
  | _ => st1

/-- Which SQL steps of `initialize()` succeed, for failure injection. -/
structure ExecEnv where
  createTablesOk : Bool
  createShadowOk : Bool
  copyOk : Bool
  dropOk : Bool
  renameOk : Bool
deriving DecidableEq

/-- Errors that `initialize()` can propagate. -/
inductive MigError where
  | createTables
  | createShadow
  | dropOld
  | renameShadow
deriving DecidableEq

/-- `initialize()` of the language-aware variant with failure injection.
The row-copy step sits in its own try/catch whose handler only logs a
warning, so a copy failure leaves the shadow table empty but continues with
the drop and rename; failures of the other steps escape via the outer
catch, which rethrows. -/
def initDbE (env : ExecEnv) (st : DBState) : Except MigError DBState :=
  if env.createTablesOk = false then .error .createTables
  else
    let st1 := ensureTables st
    match st1.user with
    | some (.old rows) =>
      if env.createShadowOk = false then .error .createShadow
      else
        let copied := if env.copyOk then rows.map migrateRow else []
        if env.dropOk = false then .error .dropOld
        else if env.renameOk = false then .error .renameShadow
        else .ok { st1 with user := some (.new copied) }
    | _ => .ok st1

/-- The argument object of `createUserProfile`. -/
structure UserInput where
  name : String
  location : Option String
  farmSize : Option Rat
  mobileNumber : Option String
  language : Option String
deriving DecidableEq

/-- SQLite rowid assignment for an unlisted `id` column. -/
def nextId (rows : List NewUserRow) : Int :=
  (rows.map fun r => r.id).foldr max 0 + 1

/-- `createUserProfile` of the language-aware variant:
`INSERT OR REPLACE` keyed by the unique `phone_number`, with
`language ?? 'en'`. -/
def createUserProfile (st : DBState) (u : UserInput) : DBState :=
  match st.user with
  | some (.new rows) =>
    let remaining := match u.mobileNumber with
      | some p => rows.filter fun r => !(r.phone == some p)
      | none => rows
    { st with user := some (.new (remaining ++
        [⟨nextId remaining, u.name, u.location, u.farmSize, u.mobileNumber,
          some (u.language.getD "en")⟩])) }
  | _ => st

/-- The row shape returned by `loginUser`/`getUserProfile`
(`phone_number` selected as `mobileNumber`). -/
structure LoginProfile where
  id : Int
  name : String
  location : Option String
  farmSize : Option Rat
  mobileNumber : Option String
  language : Option String
deriving DecidableEq

/-- The SELECT column projection of `loginUser`. -/
def profileOfRow (r : NewUserRow) : LoginProfile :=
  ⟨r.id, r.name, r.location, r.farmSize, r.phone, r.language⟩

/-- `loginUser`: first row with the given `phone_number`, or null. -/
def loginUser (st : DBState) (mobileNumber : String) : Option LoginProfile :=
  match st.user with
  | some (.new rows) =>
    (rows.find? fun r => r.phone == some mobileNumber).map profileOfRow
  | _ => none

/-- `getUserProfile`: the first `user_profile` row, or null. -/
def getUserProfile (st : DBState) : Option LoginProfile :=
  match st.user with
  | some (.new rows) => rows.head?.map profileOfRow
  | _ => none

/-- The argument object of `addDiseaseDetection` (timestamp added inside). -/
structure DetectionInput where
  cropName : Option String
  diseaseName : String
  confidence : Option Rat
  imagePath : Option String
deriving DecidableEq

/-- `addDiseaseDetection`: appends a history row stamped `Date.now()`. -/
def addDiseaseDetection (st : DBState) (rec : DetectionInput) (now : Nat) : DBState :=
  { st with disease := st.disease ++
      [⟨rec.cropName, rec.diseaseName, rec.confidence, rec.imagePath, now⟩] }

/-! ### Platform dispatch

`getDb` returns a no-op mock when `Platform.OS === 'web'`: `execAsync` and
`runAsync` do nothing and `getAllAsync` returns `[]`.  Consequently every
operation leaves the store unchanged on web, and every read sees zero rows.
-/

/-- The two platform cases distinguished by `getDb`. -/
inductive Platform where
  | web
  | native
deriving DecidableEq

/-- `initialize()` dispatched on platform: on web all statements run against
the mock (no table is created and `PRAGMA table_info` yields `[]`, so the
migration branch runs but writes nothing). -/
def initDbP : Platform → DBState → DBState
  | .web, st => st
  | .native, st => initDb st

/-- `createUserProfile` dispatched on platform: `runAsync` on the web mock
persists nothing. -/
def createUserProfileP : Platform → DBState → UserInput → DBState
  | .web, st, _ => st
  | .native, st, u => createUserProfile st u

/-- `loginUser` dispatched on platform: `getAllAsync` on the web mock
returns `[]`, so the function returns null. -/
def loginUserP : Platform → DBState → String → Option LoginProfile
  | .web, _, _ => none
  | .native, st, m => loginUser st m

/-- `getUserProfile` dispatched on platform. -/
def getUserProfileP : Platform → DBState → Option LoginProfile
  | .web, _ => none
  | .native, st => getUserProfile st

/-- `addDiseaseDetection` dispatched on platform. -/
def addDiseaseDetectionP : Platform → DBState → DetectionInput → Nat → DBState
  | .web, st, _, _ => st
  | .native, st, rec, now => addDiseaseDetection st rec now

/-! ## The DatabaseService export objects

The member names of the `DatabaseService` object exported by each variant,
copied from the `const DatabaseService = \x7b ... \x7d` blocks.
-/

/-- Members exported by the language-aware variant. -/
def dbExportsLang : List String :=
  ["initialize", "createUserProfile", "loginUser", "getUserProfile",
    "addDiseaseDetection", "updateUserLanguage", "getDb"]

/-- Members exported by the base variant. -/
def dbExportsBase : List String :=
  ["initialize", "createUserProfile", "loginUser", "getUserProfile",
    "addDiseaseDetection", "getDb"]

/-- The cache members the orchestrators call on `DatabaseService`.  A member
that the object does not define is `undefined` in JS; calling it throws a
`TypeError`.  `none` models an absent member. -/
structure CacheOps where
  cacheRecommendations : Option (CacheState → String → String → Nat → CacheState)
  getRecommendationsCache : Option (CacheState → String → Option (JVal × Nat))

/-- The cache members actually present on either exported `DatabaseService`
object: neither variant defines `cacheRecommendations` or
`getRecommendationsCache`, so both are absent. -/
def dbCacheOps : CacheOps := ⟨none, none⟩

/-! ## Cache-key derivation

Both orchestrators derive the key with the template literal
`${lat.toFixed(4)},${lon.toFixed(4)}`, modelled over exact rationals with
the ECMAScript `toFixed` semantics: the sign is taken from the argument,
and the magnitude is the integer nearest to `|x| * 10^4` (ties toward the
larger). -/

/-- The rounded magnitude `n` of `toFixed(4)`: nearest integer to
`|x| * 10^4`, ties toward the larger value. -/
def roundMag4 (x : Rat) : Nat :=
  (Int.floor ((if x < 0 then -x else x) * 10000 + 1/2)).toNat

/-- The string form of a natural number. -/
def natStr (n : Nat) : String := String.mk (natChars n)

/-- Zero-padding of the 4 fractional digits. -/
def padFrac (m : Nat) : List Char :=
  List.replicate (4 - (natChars m).length) (digitChar 0) ++ natChars m

/-- `x.toFixed(4)`. -/
def toFixed4 (x : Rat) : String :=
  (if x < 0 then "-" else "") ++ natStr (roundMag4 x / 10000)
    ++ "." ++ String.mk (padFrac (roundMag4 x % 10000))

/-- The derived cache key `${lat.toFixed(4)},${lon.toFixed(4)}`. -/
def locationKey (lat lon : Rat) : String :=
  toFixed4 lat ++ "," ++ toFixed4 lon

/-! ## The fallback orchestrators

`getRecommendations` of `CropRecommendationScreen.js` and of the standalone
`App.js` variant, as big-step functions over the screen-visible effects:
which payload (if any) reaches `setRecommendations`, which alert fires, the
final cache table, and whether the network was called.
-/

/-- A JS error surfaced by the orchestrators. -/
inductive JsErr where
  | notAFunction (member : String)
  | serverError (status : Nat)
  | networkFailure
deriving DecidableEq

/-- The alert (if any) raised by one `getRecommendations` call. -/
inductive OrchAlert where
  | permissionDenied
  | errorMsg (e : JsErr)
  | couldNotGet
  | offlineNoCache
  | offlineCacheError
deriving DecidableEq

/-- The screen-visible outcome of one `getRecommendations` call. -/
structure OrchResult where
  recommendations : Option JVal
  alert : Option OrchAlert
  cache : CacheState
  networkCalled : Bool
deriving DecidableEq

/-- `getRecommendations` of `CropRecommendationScreen.js`: check
connectivity; online, fetch and then write the cache (inside a try whose
catch alerts the error message), with `setRecommendations` before the cache
write; offline, read the cache (inside a try whose catch alerts a fixed
message), alerting "Offline" when the key is absent. -/
def getRecommendationsScreen (svc : CacheOps) (connected permGranted : Bool)
    (lat lon : Rat) (fetch : Except JsErr JVal) (now : Nat)
    (cache : CacheState) : OrchResult :=
  if connected then
    if permGranted = false then ⟨none, some .permissionDenied, cache, false⟩
    else
      match fetch with
      | .error e => ⟨none, some (.errorMsg e), cache, true⟩
      | .ok data =>
        match svc.cacheRecommendations with
        | some put => ⟨some data, none, put cache (locationKey lat lon) (jprintS data) now, true⟩
        | none =>
          ⟨some data, some (.errorMsg (.notAFunction "cacheRecommendations")), cache, true⟩
  else
    if permGranted = false then ⟨none, some .permissionDenied, cache, false⟩
    else
      match svc.getRecommendationsCache with
      | some getC =>
        match getC cache (locationKey lat lon) with
        | some (d, _ts) => ⟨some d, none, cache, false⟩
        | none => ⟨none, some .offlineNoCache, cache, false⟩
      | none => ⟨none, some .offlineCacheError, cache, false⟩

/-- `getRecommendations` of the standalone `App.js` variant: returns early
when no location is set; online, fetch via axios and then write the cache,
with a fixed "Could not get recommendations" alert from the shared catch;
offline as in the screen variant but without a permission check. -/
def getRecommendationsApp (svc : CacheOps) (connected : Bool)
    (location : Option (Rat × Rat)) (fetch : Except JsErr JVal) (now : Nat)
    (cache : CacheState) : OrchResult :=
  match location with
  | none => ⟨none, none, cache, false⟩
  | some (lat, lon) =>
    if connected then
      match fetch with
      | .error _e => ⟨none, some .couldNotGet, cache, true⟩
      | .ok data =>
        match svc.cacheRecommendations with
        | some put => ⟨some data, none, put cache (locationKey lat lon) (jprintS data) now, true⟩
        | none => ⟨some data, some .couldNotGet, cache, true⟩
    else
      match svc.getRecommendationsCache with
      | some getC =>
        match getC cache (locationKey lat lon) with
        | some (d, _ts) => ⟨some d, none, cache, false⟩
        | none => ⟨none, some .offlineNoCache, cache, false⟩
      | none => ⟨none, some .offlineCacheError, cache, false⟩

/-! ## Claim theorems -/

theorem find?_filter_not {α : Type} (p : α → Bool) (l : List α) :
    (l.filter fun a => !(p a)).find? p = none := by
  induction l with
  | nil => rfl
  | cons a l ih =>
    by_cases h : p a = true
    · simp [List.filter_cons, h, ih]
    · simp only [Bool.not_eq_true] at h
      simp [List.filter_cons, List.find?_cons, h, ih]

/-- C6: `put(key, payload)` immediately followed by `get(key)` returns a
payload equal to the input (with its write time), for every serializable
payload including nested objects; after two successive puts to the same key
exactly one row exists for that key, the state being as if only the second
put had happened (insert-or-replace), so the second payload is retrievable
and the first unreachable. -/
theorem claim_C6 (st : CacheState) (key : String) (p p1 : JVal) (now n1 : Nat) :
    getRecommendationsCacheSpec (cacheRecommendationsSpec st key p now) key
      = (some ((p, now)), cacheRecommendationsSpec st key p now) ∧
    countKey (cacheRecommendationsSpec st key p now) key = 1 ∧
    cacheRecommendationsSpec (cacheRecommendationsSpec st key p1 n1) key p now
      = cacheRecommendationsSpec st key p now :=
  ⟨get_after_put st key p now, countKey_put st key p now, put_put st key p1 p n1 now⟩

/-- C7: on a key whose stored payload fails deserialization, `get` returns
"not found" without raising (it is a total function into an `Option`
result), the corrupt row is deleted, and a subsequent `get` still reports
"not found" while leaving the state unchanged. -/
theorem claim_C7 (st : CacheState) (key : String) (row : CacheRow)
    (hfind : st.find? (fun r => r.location == key) = some row)
    (hbad : jparse row.data = none) :
    (getRecommendationsCacheSpec st key).1 = none ∧
    ((getRecommendationsCacheSpec st key).2.find? (fun r => r.location == key) = none) ∧
    getRecommendationsCacheSpec (getRecommendationsCacheSpec st key).2 key
      = (none, (getRecommendationsCacheSpec st key).2) :=
  get_corrupt st key row hfind hbad

/-- Witness for C7 at a concrete corrupt row. -/
theorem claim_C7_witness :
    (getRecommendationsCacheSpec [⟨"17.6868,83.2185", "oops", 7⟩] "17.6868,83.2185").1
        = none ∧
    ((getRecommendationsCacheSpec [⟨"17.6868,83.2185", "oops", 7⟩] "17.6868,83.2185").2.find?
        (fun r => r.location == "17.6868,83.2185") = none) ∧
    getRecommendationsCacheSpec
        (getRecommendationsCacheSpec [⟨"17.6868,83.2185", "oops", 7⟩] "17.6868,83.2185").2
        "17.6868,83.2185"
      = (none,
          (getRecommendationsCacheSpec [⟨"17.6868,83.2185", "oops", 7⟩] "17.6868,83.2185").2) :=
  claim_C7 [⟨"17.6868,83.2185", "oops", 7⟩] "17.6868,83.2185" ⟨"17.6868,83.2185", "oops", 7⟩
    (by decide) (by decide)

/-- C3: neither DatabaseService variant defines or exports
`cacheRecommendations` or `getRecommendationsCache`; therefore, with the
actually exported object, every online success path of both orchestrators
raises a TypeError after the fetch — surfaced as an error alert, with the
cache left unchanged — and the offline path of both orchestrators can never
deliver a cached payload. -/
theorem claim_C3 :
    ("cacheRecommendations" ∉ dbExportsLang ∧ "cacheRecommendations" ∉ dbExportsBase ∧
      "getRecommendationsCache" ∉ dbExportsLang ∧ "getRecommendationsCache" ∉ dbExportsBase ∧
      dbCacheOps.cacheRecommendations = none ∧ dbCacheOps.getRecommendationsCache = none) ∧
    (∀ (lat lon : Rat) (data : JVal) (now : Nat) (cache : CacheState),
      getRecommendationsScreen dbCacheOps true true lat lon (.ok data) now cache
        = ⟨some data, some (.errorMsg (.notAFunction "cacheRecommendations")), cache, true⟩) ∧
    (∀ (loc : Rat × Rat) (data : JVal) (now : Nat) (cache : CacheState),
      getRecommendationsApp dbCacheOps true (some loc) (.ok data) now cache
        = ⟨some data, some .couldNotGet, cache, true⟩) ∧
    (∀ (perm : Bool) (lat lon : Rat) (fetch : Except JsErr JVal) (now : Nat)
        (cache : CacheState),
      (getRecommendationsScreen dbCacheOps false perm lat lon fetch now cache).recommendations
        = none) ∧
    (∀ (loc : Option (Rat × Rat)) (fetch : Except JsErr JVal) (now : Nat)
        (cache : CacheState),
      (getRecommendationsApp dbCacheOps false loc fetch now cache).recommendations = none) := by
  refine ⟨⟨by decide, by decide, by decide, by decide, rfl, rfl⟩, ?_, ?_, ?_, ?_⟩
  · intro lat lon data now cache
    rfl
  · intro loc data now cache
    rfl
  · intro perm lat lon fetch now cache
    cases perm <;> rfl
  · intro loc fetch now cache
    cases loc with
    | none => rfl
    | some x => rfl

/-- The payload `{temp:30}` of end-to-end scenario 1. -/
def payloadTemp30 : JVal := .jobj (.cons "temp" (.jint 30) .nil)

/-- The payload `{temp:28}` of end-to-end scenario 2. -/
def payloadTemp28 : JVal := .jobj (.cons "temp" (.jint 28) .nil)

/-- C1, what the code actually does at the failing input: online, permission
granted, the fetch succeeds with `{temp:30}` and the cache is empty — the
screen orchestrator shows the data, then the cache write throws (the member
is undefined), the catch alerts the error, and nothing is ever written
under the derived key. -/
theorem claim_C1_divergence :
    getRecommendationsScreen dbCacheOps true true ((176868 : Rat)/10000)
        ((832185 : Rat)/10000) (.ok payloadTemp30) 0 []
      = ⟨some payloadTemp30,
          some (.errorMsg (.notAFunction "cacheRecommendations")), [], true⟩ ∧
    countKey (getRecommendationsScreen dbCacheOps true true ((176868 : Rat)/10000)
        ((832185 : Rat)/10000) (.ok payloadTemp30) 0 []).cache
        (locationKey ((176868 : Rat)/10000) ((832185 : Rat)/10000)) = 0 :=
  ⟨rfl, rfl⟩

/-- C2, what the code actually does at the failing input: offline,
permission granted, and the cache holds `{temp:28}` under the derived key
(the spec-modelled `get` would return it) — yet the screen orchestrator
alerts "Could not load cached recommendations" (the member is undefined)
and delivers nothing, for the cache-present and cache-absent states alike. -/
theorem claim_C2_divergence :
    (getRecommendationsCacheSpec
        (cacheRecommendationsSpec [] (locationKey ((176868 : Rat)/10000)
          ((832185 : Rat)/10000)) payloadTemp28 5)
        (locationKey ((176868 : Rat)/10000) ((832185 : Rat)/10000))).1
      = some ((payloadTemp28, 5)) ∧
    getRecommendationsScreen dbCacheOps false true ((176868 : Rat)/10000)
        ((832185 : Rat)/10000) (.ok payloadTemp28) 0
        (cacheRecommendationsSpec [] (locationKey ((176868 : Rat)/10000)
          ((832185 : Rat)/10000)) payloadTemp28 5)
      = ⟨none, some .offlineCacheError,
          cacheRecommendationsSpec [] (locationKey ((176868 : Rat)/10000)
            ((832185 : Rat)/10000)) payloadTemp28 5, false⟩ := by
  constructor
  · rw [get_after_put]
  · rfl

/-- C4: from a store whose user table has the old shape with N rows,
`initialize()` leaves the table in the new shape with `language = 'en'` for
every pre-existing row and every other column preserved (so the row count
is N); the other tables are untouched; a second call is a no-op, and more
generally `initialize()` is a no-op on any already-migrated store — the
migration being gated solely on the column-presence check. -/
theorem claim_C4 (st : DBState) (rows : List OldUserRow)
    (h : st.user = some (.old rows)) :
    (initDb st).user = some (.new (rows.map fun r =>
        ⟨r.id, r.name, r.location, r.farmSize, r.phone, some "en"⟩)) ∧
    (rows.map fun r : OldUserRow =>
        (⟨r.id, r.name, r.location, r.farmSize, r.phone, some "en"⟩ : NewUserRow)).length
      = rows.length ∧
    (initDb st).disease = st.disease ∧
    (initDb st).cache = st.cache ∧
    initDb (initDb st) = initDb st ∧
    (∀ (st2 : DBState) (rs2 : List NewUserRow), st2.user = some (.new rs2) →
      initDb st2 = st2) := by
  have hmig : ∀ (st2 : DBState) (rs2 : List NewUserRow), st2.user = some (.new rs2) →
      initDb st2 = st2 := by
    intro st2 rs2 h2
    simp [initDb, ensureTables, h2]
    rw [← h2]
  have h1 : initDb st = { st with user := some (.new (rows.map migrateRow)) } := by
    simp [initDb, ensureTables, h]
  refine ⟨?_, by simp, by rw [h1], by rw [h1], ?_, hmig⟩
  · rw [h1]
    simp [migrateRow]
  · rw [h1, hmig _ (rows.map migrateRow) rfl]

/-- Witness for C4: a concrete old-shape store with two rows, migrated. -/
theorem claim_C4_witness :
    (initDb ⟨some (.old [⟨1, "Ravi", none, none, some "9876543210"⟩,
        ⟨2, "Sita", some "Vizag", some 2, none⟩]), [], []⟩).user
      = some (.new ([⟨1, "Ravi", none, none, some "9876543210"⟩,
          ⟨2, "Sita", some "Vizag", some 2, none⟩].map fun r : OldUserRow =>
          ⟨r.id, r.name, r.location, r.farmSize, r.phone, some "en"⟩)) ∧
    initDb (initDb ⟨some (.old [⟨1, "Ravi", none, none, some "9876543210"⟩,
        ⟨2, "Sita", some "Vizag", some 2, none⟩]), [], []⟩)
      = initDb ⟨some (.old [⟨1, "Ravi", none, none, some "9876543210"⟩,
          ⟨2, "Sita", some "Vizag", some 2, none⟩]), [], []⟩ :=
  ⟨(claim_C4 ⟨some (.old [⟨1, "Ravi", none, none, some "9876543210"⟩,
      ⟨2, "Sita", some "Vizag", some 2, none⟩]), [], []⟩ _ rfl).1,
   (claim_C4 ⟨some (.old [⟨1, "Ravi", none, none, some "9876543210"⟩,
      ⟨2, "Sita", some "Vizag", some 2, none⟩]), [], []⟩ _ rfl).2.2.2.2.1⟩

/-- C5: inside the migration, a failing row-copy step is non-fatal — the
drop and rename still run and `initialize()` completes without raising
(returning the migrated shape, with the shadow table left empty) — whereas
a failing shadow-table create, drop, or rename step propagates as an error
out of `initialize()`. -/
theorem claim_C5 (st : DBState) (rows : List OldUserRow)
    (h : st.user = some (.old rows)) :
    (initDbE ⟨true, true, false, true, true⟩ st
      = .ok { ensureTables st with user := some (.new []) }) ∧
    (∀ cpy drp ren : Bool, initDbE ⟨true, false, cpy, drp, ren⟩ st
      = .error .createShadow) ∧
    (∀ cpy ren : Bool, initDbE ⟨true, true, cpy, false, ren⟩ st = .error .dropOld) ∧
    (∀ cpy : Bool, initDbE ⟨true, true, cpy, true, false⟩ st
      = .error .renameShadow) := by
  have hu : (ensureTables st).user = some (.old rows) := by
    simp [ensureTables, h]
  refine ⟨?_, ?_, ?_, ?_⟩
  · simp [initDbE, ensureTables, h]
  · intro cpy drp ren
    simp [initDbE, ensureTables, h]
  · intro cpy ren
    cases cpy <;> simp [initDbE, ensureTables, h]
  · intro cpy
    cases cpy <;> simp [initDbE, ensureTables, h]

/-- Witness for C5 at a concrete one-row old-shape store. -/
theorem claim_C5_witness :
    (initDbE ⟨true, true, false, true, true⟩
        ⟨some (.old [⟨1, "Ravi", none, none, some "9876543210"⟩]), [], []⟩
      = .ok { ensureTables ⟨some (.old [⟨1, "Ravi", none, none, some "9876543210"⟩]), [], []⟩
          with user := some (.new []) }) ∧
    (∀ cpy drp ren : Bool, initDbE ⟨true, false, cpy, drp, ren⟩
        ⟨some (.old [⟨1, "Ravi", none, none, some "9876543210"⟩]), [], []⟩
      = .error .createShadow) ∧
    (∀ cpy ren : Bool, initDbE ⟨true, true, cpy, false, ren⟩
        ⟨some (.old [⟨1, "Ravi", none, none, some "9876543210"⟩]), [], []⟩
      = .error .dropOld) ∧
    (∀ cpy : Bool, initDbE ⟨true, true, cpy, true, false⟩
        ⟨some (.old [⟨1, "Ravi", none, none, some "9876543210"⟩]), [], []⟩
      = .error .renameShadow) :=
  claim_C5 ⟨some (.old [⟨1, "Ravi", none, none, some "9876543210"⟩]), [], []⟩ _ rfl

/-- C9: registering a user with a phone number and no language, then
`loginUser` with that number, returns a profile carrying that number and
the default language `'en'` (and the registered name); `loginUser` returns
null for any number no stored row carries. -/
theorem claim_C9 (st : DBState) (rows : List NewUserRow)
    (h : st.user = some (.new rows)) (u : UserInput) (phone : String)
    (hm : u.mobileNumber = some phone) (hl : u.language = none)
    (other : String) (hother : ∀ r ∈ rows, ¬(r.phone = some other)) :
    (∃ pr : LoginProfile, loginUser (createUserProfile st u) phone = some pr ∧
      pr.mobileNumber = some phone ∧ pr.language = some "en" ∧ pr.name = u.name) ∧
    loginUser st other = none := by
  constructor
  · have hcreate : createUserProfile st u
        = { st with user := some (.new ((rows.filter fun r => !(r.phone == some phone)) ++
            [⟨nextId (rows.filter fun r => !(r.phone == some phone)), u.name, u.location,
              u.farmSize, some phone, some "en"⟩])) } := by
      simp [createUserProfile, h, hm, hl]
    refine ⟨⟨nextId (rows.filter fun r => !(r.phone == some phone)), u.name, u.location,
      u.farmSize, some phone, some "en"⟩, ?_, rfl, rfl, rfl⟩
    rw [hcreate]
    show (List.find? _ _).map profileOfRow = _
    rw [find?_append_left_none (fun r : NewUserRow => r.phone == some phone) _ _
      (find?_filter_not (fun r : NewUserRow => r.phone == some phone) rows)]
    simp [List.find?_cons, profileOfRow]
  · rw [loginUser, h]
    have : rows.find? (fun r => r.phone == some other) = none := by
      rw [List.find?_eq_none]
      intro r hr
      simpa using hother r hr
    simp [this]

/-- Witness for C9: register phone `"9876543210"` in an empty migrated
store, then log in with it; `"0123"` is unregistered. -/
theorem claim_C9_witness :
    (∃ pr : LoginProfile,
      loginUser (createUserProfile ⟨some (.new []), [], []⟩
          ⟨"Ravi", none, none, some "9876543210", none⟩) "9876543210" = some pr ∧
      pr.mobileNumber = some "9876543210" ∧ pr.language = some "en" ∧
      pr.name = (⟨"Ravi", none, none, some "9876543210", none⟩ : UserInput).name) ∧
    loginUser ⟨some (.new []), [], []⟩ "0123" = none :=
  claim_C9 ⟨some (.new []), [], []⟩ [] rfl ⟨"Ravi", none, none, some "9876543210", none⟩
    "9876543210" rfl rfl "0123" (by simp)

/-- C10: on the web platform every DatabaseService operation runs against
the no-op mock database: `initialize()` changes nothing, `createUserProfile`
and `addDiseaseDetection` persist nothing, and `loginUser`/`getUserProfile`
return null for every input — including right after a write in the same
session. -/
theorem claim_C10 :
    (∀ st : DBState, initDbP .web st = st) ∧
    (∀ (st : DBState) (u : UserInput), createUserProfileP .web st u = st) ∧
    (∀ (st : DBState) (rec : DetectionInput) (now : Nat),
      addDiseaseDetectionP .web st rec now = st) ∧
    (∀ (st : DBState) (m : String), loginUserP .web st m = none) ∧
    (∀ st : DBState, getUserProfileP .web st = none) ∧
    (∀ (st : DBState) (u : UserInput) (m : String),
      loginUserP .web (createUserProfileP .web st u) m = none) ∧
    (∀ (st : DBState) (u : UserInput),
      getUserProfileP .web (createUserProfileP .web st u) = none) :=
  ⟨fun _ => rfl, fun _ _ => rfl, fun _ _ _ => rfl, fun _ _ => rfl, fun _ => rfl,
    fun _ _ _ => rfl, fun _ _ => rfl⟩

/-- The cache key as a function of each coordinate's sign and 4-decimal
rounded magnitude only. -/
def keyOfRounded (latNeg : Bool) (latMag : Nat) (lonNeg : Bool) (lonMag : Nat) : String :=
  ((if latNeg then "-" else "") ++ natStr (latMag / 10000)
      ++ "." ++ String.mk (padFrac (latMag % 10000)))
    ++ ","
    ++ ((if lonNeg then "-" else "") ++ natStr (lonMag / 10000)
      ++ "." ++ String.mk (padFrac (lonMag % 10000)))

/-- C8 (amended): the derived cache key is a pure, deterministic function of
the coordinates' signs and their magnitudes rounded to 4 decimal places
(`toFixed(4)` rounds, ties toward the larger magnitude), so any two
coordinate pairs with equal signs and equal 4-decimal roundings map to the
same key. -/
theorem claim_C8 (lat lon : Rat) :
    locationKey lat lon
      = keyOfRounded (decide (lat < 0)) (roundMag4 lat) (decide (lon < 0)) (roundMag4 lon) := by
  unfold locationKey toFixed4 keyOfRounded
  by_cases h1 : lat < 0 <;> by_cases h2 : lon < 0 <;> simp [h1, h2]

/-- C8 counterexample: 0.00001 and 0.00009 agree on the first four decimal
places (both truncate to 0.0000, so they differ only beyond the 4th decimal
place) yet `toFixed(4)` rounds them apart (0.00009 rounds up to 0.0001), so
they map to different cache keys. -/
theorem claim_C8_counterexample :
    Int.floor (((1 : Rat)/100000) * 10000) = Int.floor (((9 : Rat)/100000) * 10000) ∧
    ((1 : Rat)/100000) ≠ ((9 : Rat)/100000) ∧
    locationKey ((1 : Rat)/100000) 0 ≠ locationKey ((9 : Rat)/100000) 0 := by
  have h1 : roundMag4 ((1 : Rat)/100000) = 0 := by
    unfold roundMag4
    norm_num
  have h2 : roundMag4 ((9 : Rat)/100000) = 1 := by
    unfold roundMag4
    norm_num
  have h3 : roundMag4 (0 : Rat) = 0 := by
    unfold roundMag4
    norm_num
  have hs1 : ¬(((1 : Rat)/100000) < 0) := by norm_num
  have hs2 : ¬(((9 : Rat)/100000) < 0) := by norm_num
  have hs3 : ¬((0 : Rat) < 0) := by norm_num
  have e0 : natChars 0 = [digitChar 0] := by
    rw [natChars]
    norm_num
  have eA : natChars 1 = [digitChar 1] := by
    rw [natChars]
    norm_num
  refine ⟨by norm_num, by norm_num, ?_⟩
  simp only [locationKey, toFixed4, h1, h2, h3, hs1, hs2, hs3, ite_false, natStr,
    padFrac, e0, eA, Nat.zero_div, Nat.zero_mod]
  decide
